import Mathlib

/-!
Verification of the reservoir-cpp migration-coverage scripts.

The repository's core logic lives in `test_verification.py` (the gating
run variant) and `TO_REMOVE/detailed_verification.py` (the advisory run
variant).  Text is modelled as `List Char`; file-system reads are modelled
as explicit `Option`/`Except` inputs, so every function below is a total
translation of the corresponding Python function.
-/

namespace RCV

/-- Python `str.strip()` whitespace set (ASCII part). -/
def pyIsSpace (c : Char) : Bool :=
  c = ' ' || c = '\t' || c = '\n' || c = '\r' || c = '\x0b' || c = '\x0c'

/-- Python `line.strip()`: drop leading and trailing whitespace. -/
def pyStrip (l : List Char) : List Char :=
  ((l.dropWhile pyIsSpace).reverse.dropWhile pyIsSpace).reverse

/-- Python `content.split('\n')`: split on every newline, keeping empty pieces. -/
def splitLines : List Char → List (List Char)
  | [] => [[]]
  | c :: rest =>
    match splitLines rest with
    | [] => [[]]
    | l :: ls => if c = '\n' then [] :: l :: ls else (c :: l) :: ls

/-- Python `s.lower()` (ASCII behaviour of `Char.toLower`). -/
def pyLower (l : List Char) : List Char := l.map Char.toLower

/-- Python `needle in haystack` for strings: contiguous substring
containment (true for an empty needle). -/
def pyContains (needle : List Char) : List Char → Bool
  | [] => needle.isEmpty
  | c :: rest => needle.isPrefixOf (c :: rest) || pyContains needle rest

/-- Fueled worker for Python `s.replace(pat, '')`: scan left to right, and at
each position either skip a non-overlapping occurrence of `pat` or keep the
character.  The fuel argument (instantiated with the input length, which is
sufficient since every step consumes at least one character) makes the
recursion structural.  Only called with the nonempty patterns `"def "` and
`"class "`, matching the source. -/
def removeAllAux (pat : List Char) : Nat → List Char → List Char
  | 0, s => s
  | _ + 1, [] => []
  | fuel + 1, c :: rest =>
    match pat with
    | [] => c :: rest
    | _ :: ps =>
      if pat.isPrefixOf (c :: rest) then removeAllAux pat fuel (rest.drop ps.length)
      else c :: removeAllAux pat fuel rest

/-- Python `s.replace(pat, '')` for a nonempty `pat`. -/
def removeAll (pat s : List Char) : List Char :=
  removeAllAux pat s.length s

/-- `line.startswith('def ') and not line.startswith('def _')`
(`analyze_python_module`, test_verification.py line 12). -/
def isFuncLine (l : List Char) : Bool :=
  (("def ".toList).isPrefixOf l) && !(("def _".toList).isPrefixOf l)

/-- `line.startswith('class ')` (test_verification.py line 15). -/
def isClassLine (l : List Char) : Bool :=
  ("class ".toList).isPrefixOf l

/-- `line.split('(')[0].replace('def ', '')` (test_verification.py line 13):
the prefix before the first `'('`, with every occurrence of `"def "` removed. -/
def funcName (l : List Char) : List Char :=
  removeAll ("def ".toList) (l.takeWhile (fun c => c != '('))

/-- `line.split('(')[0].split(':')[0].replace('class ', '')`
(test_verification.py line 16). -/
def className (l : List Char) : List Char :=
  removeAll ("class ".toList) ((l.takeWhile (fun c => c != '(')).takeWhile (fun c => c != ':'))

/-- The line loop of `analyze_python_module` (test_verification.py lines 10-17):
strip each line; `if` it is a public `def` line record a function name,
`elif` it is a `class` line record a class name.  The two lists are built in
line order, exactly as the Python loop appends. -/
def analyzeLines : List (List Char) → List (List Char) × List (List Char)
  | [] => ([], [])
  | line :: rest =>
    let l := pyStrip line
    let r := analyzeLines rest
    if isFuncLine l then (funcName l :: r.1, r.2)
    else if isClassLine l then (r.1, className l :: r.2)
    else r

/-- Result record of `analyze_python_module`: the `'error'` key is present
exactly when the `except` branch ran. -/
structure ModuleAnalysis where
  functions : List (List Char)
  classes : List (List Char)
  path : List Char
  error : Option (List Char)
  deriving DecidableEq

/-- `analyze_python_module` (test_verification.py lines 5-20).  The
`open`/`read` of the file is modelled by the `readResult` argument: `.ok`
carries the decoded text, `.error` carries the exception message caught by
the `except` branch.  The function is total: a failed read is folded into
the returned record, never raised. -/
def analyze_python_module (path : List Char)
    (readResult : Except (List Char) (List Char)) : ModuleAnalysis :=
  match readResult with
  | .ok content =>
    let r := analyzeLines (splitLines content)
    { functions := r.1, classes := r.2, path := path, error := none }
  | .error e => { functions := [], classes := [], path := path, error := some e }

/-- One candidate-corpus file as seen by `check_cpp_equivalent`:
`content = none` models a file whose `open`/`read` raises (the bare
`except: continue`), `some text` a readable file. -/
structure CandFile where
  path : List Char
  content : Option (List Char)

/-- The location component of `check_cpp_equivalent`'s return value:
`foundIn p` models `f"Found in {p}"`, `notFound` models `"NOT FOUND"`. -/
inductive Location where
  | foundIn (path : List Char)
  | notFound
  deriving DecidableEq

/-- `check_cpp_equivalent` (test_verification.py lines 22-33).  The nested
traversal over roots, extension patterns and `rglob` results is modelled by
the single list `files` in traversal order.  For each readable file the code
tests `item_name.lower() in text.lower()` and returns on the first match;
unreadable files are skipped silently. -/
def check_cpp_equivalent (item_name : List Char) : List CandFile → Bool × Location
  | [] => (false, .notFound)
  | f :: rest =>
    match f.content with
    | none => check_cpp_equivalent item_name rest
    | some text =>
      if pyContains (pyLower item_name) (pyLower text) then (true, .foundIn f.path)
      else check_cpp_equivalent item_name rest

/-- Pure predicate form of the per-file test in `check_cpp_equivalent`:
readable and containing the lower-cased name as a substring. -/
def fileMatches (item_name : List Char) (f : CandFile) : Bool :=
  match f.content with
  | none => false
  | some text => pyContains (pyLower item_name) (pyLower text)

/-- One `(name, has_cpp, location)` tuple as appended to `function_results` /
`class_results` in `main` (test_verification.py lines 64-79). -/
structure SymResult where
  name : List Char
  has_cpp : Bool
  location : Location
  deriving DecidableEq

/-- The inner symbol loop of `main`: run `check_cpp_equivalent` on each name
in order and record the tuple. -/
def processSymbols (corpus : List CandFile) (names : List (List Char)) : List SymResult :=
  names.map (fun n =>
    let r := check_cpp_equivalent n corpus
    { name := n, has_cpp := r.1, location := r.2 })

/-- Per-module entry of `verification_results`. -/
structure ModuleResults where
  functions : List SymResult
  classes : List SymResult
  deriving DecidableEq

/-- One `{'name': ..., 'module': ...}` record of `missing_items`. -/
structure MissingEntry where
  name : List Char
  module : List Char
  deriving DecidableEq

/-- The `if not has_cpp: missing_items[kind].append({'name': ..., 'module': ...})`
part of the symbol loops: the not-found symbols of one module, in order. -/
def missingOf (modName : List Char) (rs : List SymResult) : List MissingEntry :=
  rs.filterMap (fun r => if r.has_cpp then none else some { name := r.name, module := modName })

/-- One reference module as `main` sees it: its `core_modules` entry and the
state of `reservoirpy_dir / module`: `none` when `module_path.exists()` is
false, otherwise the outcome of reading the file. -/
structure RefModule where
  name : List Char
  file : Option (Except (List Char) (List Char))

/-- The module loop of `main` (test_verification.py lines 54-81): skip a
module whose path does not exist; analyze it; on an extraction error print
and `continue`; otherwise check every function and class name against the
candidate corpus, accumulating `verification_results` (first component) and
`missing_items['functions']`, `missing_items['classes']` (second and third),
all in module order. -/
def runModules (corpus : List CandFile) :
    List RefModule → List (List Char × ModuleResults) × List MissingEntry × List MissingEntry
  | [] => ([], [], [])
  | m :: rest =>
    let R := runModules corpus rest
    match m.file with
    | none => R
    | some readResult =>
      let analysis := analyze_python_module m.name readResult
      match analysis.error with
      | some _ => R
      | none =>
        let fr := processSymbols corpus analysis.functions
        let cr := processSymbols corpus analysis.classes
        ((m.name, ⟨fr, cr⟩) :: R.1,
         missingOf m.name fr ++ R.2.1,
         missingOf m.name cr ++ R.2.2)

/-- `sum(1 for ... if has_cpp)`: implemented symbols among a result list. -/
def implementedCount (rs : List SymResult) : Nat :=
  rs.countP (fun r => r.has_cpp)

/-- The summary data `main` computes (test_verification.py lines 86-101),
with `percentage` the exact rational value of the Python expression
`(implemented / total * 100) if total > 0 else 100`. -/
structure CoverageReport where
  totalFunctions : Nat
  implementedFunctions : Nat
  totalClasses : Nat
  implementedClasses : Nat
  missingFunctions : List MissingEntry
  missingClasses : List MissingEntry
  percentage : ℚ

/-- The summary section of `main` (test_verification.py lines 86-101): fold
`verification_results` into per-kind totals and implemented counts and
compute `coverage_percentage` with the zero-total guard. -/
def mainReport (corpus : List CandFile) (modules : List RefModule) : CoverageReport :=
  let R := runModules corpus modules
  let totalF := (R.1.map (fun p => p.2.functions.length)).sum
  let implF := (R.1.map (fun p => implementedCount p.2.functions)).sum
  let totalC := (R.1.map (fun p => p.2.classes.length)).sum
  let implC := (R.1.map (fun p => implementedCount p.2.classes)).sum
  { totalFunctions := totalF, implementedFunctions := implF,
    totalClasses := totalC, implementedClasses := implC,
    missingFunctions := R.2.1, missingClasses := R.2.2,
    percentage :=
      if 0 < totalF + totalC then
        ((implF + implC : ℕ) : ℚ) / ((totalF + totalC : ℕ) : ℚ) * 100
      else 100 }

/-- `success = coverage_percentage >= 90.0` (test_verification.py line 112). -/
def success_tv (r : CoverageReport) : Bool :=
  decide (r.percentage ≥ 90)

/-- The pass test of detailed_verification.py line 175:
`(implemented_functions + implemented_classes) >= 0.9 * (total_functions +
total_classes)`, with `0.9` as the exact rational `9/10`. -/
def success_dv (implemented total : Nat) : Bool :=
  decide ((implemented : ℚ) ≥ (9 / 10 : ℚ) * (total : ℚ))

/-- `sys.exit(0 if success else 1)`: the exit code computed at the gating
process boundary (test_verification.py line 123). -/
def exit_tv (success : Bool) : Nat :=
  if success then 0 else 1

/-- The `__main__` block of test_verification.py (lines 121-123): `main` may
either return its boolean (`.ok`) or raise (`.error`); there is no handler,
so a fault propagates out of the process boundary unhandled. -/
def mainBoundary_tv : Except (List Char) Bool → Except (List Char) Nat
  | .ok s => .ok (exit_tv s)
  | .error e => .error e

/-- The `__main__` block of detailed_verification.py (lines 184-196): every
`Exception` is caught and logged, and the `finally: sys.exit(0)` always
resolves the process to exit code 0, whether `main` returned or raised. -/
def mainBoundary_dv (_r : Except (List Char) Bool) : Nat := 0

/-- The exit-code policy of the spec: `advisory` (always succeed) or
`gating` (succeed iff pass). -/
inductive ExitPolicy where
  | advisory
  | gating
  deriving DecidableEq

/-- The single configuration flag of the spec's policy surface, realized by
the two process boundaries present in the source: `gating` is
test_verification.py's boundary, `advisory` is detailed_verification.py's. -/
def exitCode : ExitPolicy → Bool → Nat
  | .advisory, _ => 0
  | .gating, s => exit_tv s

/-- JSON documents, as far as the artifacts need them. -/
inductive Json where
  | str (s : List Char)
  | arr (elems : List Json)
  | obj (fields : List (List Char × Json))

/-- `json.dump` of one missing-item record: an object with the `name` and
`module` fields. -/
def dumpEntry (e : MissingEntry) : Json :=
  .obj [(("name".toList), .str e.name), (("module".toList), .str e.module)]

/-- `json.dump(missing_items[kind], f)` (test_verification.py lines 107-110):
the artifact document is the array of the records, in list order. -/
def dumpEntries (l : List MissingEntry) : Json :=
  .arr (l.map dumpEntry)

/-- `json.load` of one record back into a missing-item entry. -/
def loadEntry : Json → Option MissingEntry
  | .obj ((k1, .str v1) :: (k2, .str v2) :: []) =>
    if k1 = ("name".toList) ∧ k2 = ("module".toList) then
      some { name := v1, module := v2 }
    else none
  | _ => none

/-- `json.load` of the element list of an artifact array: every element must
be a well-formed record. -/
def loadList : List Json → Option (List MissingEntry)
  | [] => some []
  | j :: rest =>
    match loadEntry j, loadList rest with
    | some e, some es => some (e :: es)
    | _, _ => none

/-- `json.load` of a whole artifact document. -/
def loadEntries : Json → Option (List MissingEntry)
  | .arr elems => loadList elems
  | _ => none

/-- `open(path, 'w')` followed by `json.dump`: mode `'w'` truncates, so the
resulting file content is the fresh document regardless of what the file
held before. -/
def writeArtifact (_prior : Option Json) (entries : List MissingEntry) : Json :=
  dumpEntries entries

/-- What the `if` branch of the line loop yields for one line. -/
def funcOfLine (line : List Char) : Option (List Char) :=
  let l := pyStrip line
  if isFuncLine l then some (funcName l) else none

/-- What the `elif` branch of the line loop yields for one line (checked
only when the `if` branch did not fire, as in the source). -/
def classOfLine (line : List Char) : Option (List Char) :=
  let l := pyStrip line
  if isFuncLine l then none
  else if isClassLine l then some (className l) else none

/-- Module-order concatenation of per-kind missing entries over
`verification_results`. -/
def aggMissing (sel : ModuleResults → List SymResult) :
    List (List Char × ModuleResults) → List MissingEntry
  | [] => []
  | p :: rest => missingOf p.1 (sel p.2) ++ aggMissing sel rest

lemma analyzeLines_eq (lines : List (List Char)) :
    analyzeLines lines = (lines.filterMap funcOfLine, lines.filterMap classOfLine) := by
  induction lines with
  | nil => rfl
  | cons line rest ih =>
    by_cases h1 : isFuncLine (pyStrip line) <;>
      by_cases h2 : isClassLine (pyStrip line) <;>
      simp [analyzeLines, funcOfLine, classOfLine, List.filterMap_cons, h1, h2, ih]

lemma check_eq_find (name : List Char) (files : List CandFile) :
    check_cpp_equivalent name files =
      match files.find? (fileMatches name) with
      | some f => (true, Location.foundIn f.path)
      | none => (false, Location.notFound) := by
  induction files with
  | nil => rfl
  | cons f rest ih =>
    cases hc : f.content with
    | none =>
      have hm : fileMatches name f = false := by simp [fileMatches, hc]
      simp [check_cpp_equivalent, hc, List.find?_cons, hm, ih]
    | some text =>
      have hm : fileMatches name f = pyContains (pyLower name) (pyLower text) := by
        simp [fileMatches, hc]
      by_cases hp : pyContains (pyLower name) (pyLower text) <;>
        simp [check_cpp_equivalent, hc, List.find?_cons, hm, hp, ih]

lemma implementedCount_add_missing (n : List Char) (rs : List SymResult) :
    implementedCount rs + (missingOf n rs).length = rs.length := by
  induction rs with
  | nil => rfl
  | cons r rest ih =>
    cases hb : r.has_cpp <;>
      simp [implementedCount, missingOf, List.countP_cons, hb] at ih ⊢ <;> omega

lemma missingOf_eq_filter (n : List Char) (rs : List SymResult) :
    missingOf n rs = (rs.filter (fun r => !r.has_cpp)).map
      (fun r => { name := r.name, module := n }) := by
  induction rs with
  | nil => rfl
  | cons r rest ih =>
    cases hb : r.has_cpp <;>
      simp [missingOf, List.filter_cons, hb] at ih ⊢ <;> exact ih

lemma runModules_missing (corpus : List CandFile) (mods : List RefModule) :
    (runModules corpus mods).2.1 =
        aggMissing (fun r => r.functions) (runModules corpus mods).1 ∧
      (runModules corpus mods).2.2 =
        aggMissing (fun r => r.classes) (runModules corpus mods).1 := by
  induction mods with
  | nil => exact ⟨rfl, rfl⟩
  | cons m rest ih =>
    cases hf : m.file with
    | none => simpa [runModules, hf] using ih
    | some readResult =>
      cases he : (analyze_python_module m.name readResult).error with
      | none => simp [runModules, hf, he, aggMissing, ih.1, ih.2]
      | some e => simpa [runModules, hf, he] using ih

lemma mainReport_percentage (corpus : List CandFile) (mods : List RefModule) :
    (mainReport corpus mods).percentage =
      if 0 < (mainReport corpus mods).totalFunctions + (mainReport corpus mods).totalClasses then
        (((mainReport corpus mods).implementedFunctions +
            (mainReport corpus mods).implementedClasses : ℕ) : ℚ) /
          (((mainReport corpus mods).totalFunctions +
            (mainReport corpus mods).totalClasses : ℕ) : ℚ) * 100
      else 100 := rfl

lemma pyContains_nil (t : List Char) : pyContains [] t = true := by
  cases t <;> simp [pyContains, List.isPrefixOf]

lemma fileMatches_nil (f : CandFile) : fileMatches [] f = f.content.isSome := by
  cases hc : f.content <;> simp [fileMatches, hc, pyLower, pyContains_nil]

lemma loadEntry_dumpEntry (e : MissingEntry) : loadEntry (dumpEntry e) = some e := rfl

lemma loadEntries_dumpEntries (l : List MissingEntry) :
    loadEntries (dumpEntries l) = some l := by
  induction l with
  | nil => rfl
  | cons e rest ih =>
    simp only [dumpEntries, loadEntries, List.map_cons, loadList,
      loadEntry_dumpEntry] at ih ⊢
    simp [ih]

lemma success_tv_eq_dv (corpus : List CandFile) (mods : List RefModule) :
    success_tv (mainReport corpus mods) =
      success_dv
        ((mainReport corpus mods).implementedFunctions +
          (mainReport corpus mods).implementedClasses)
        ((mainReport corpus mods).totalFunctions +
          (mainReport corpus mods).totalClasses) := by
  set I := (mainReport corpus mods).implementedFunctions +
    (mainReport corpus mods).implementedClasses with hI
  set T := (mainReport corpus mods).totalFunctions +
    (mainReport corpus mods).totalClasses with hT
  unfold success_tv success_dv
  rw [decide_eq_decide, mainReport_percentage, ← hI, ← hT]
  rcases Nat.eq_zero_or_pos T with h0 | hpos
  · rw [if_neg (by omega), h0]
    norm_num
  · rw [if_pos hpos]
    have hTQ : (0 : ℚ) < (T : ℚ) := by exact_mod_cast hpos
    rw [ge_iff_le, ge_iff_le, div_mul_eq_mul_div, le_div_iff₀ hTQ]
    constructor <;> intro h <;> linarith

/-- A candidate corpus with one readable header containing `alpha`. -/
def demoCorpus : List CandFile :=
  [{ path := ("a.hpp".toList), content := some ("void alpha();".toList) }]

/-- One reference module declaring `alpha` (found) and `gamma` (not found). -/
def demoModules : List RefModule :=
  [{ name := ("m.py".toList),
     file := some (.ok (("def alpha():".toList) ++ '\n' :: ("def gamma():".toList))) }]

/-- A reference-module list whose single module declares one function that no
candidate file (there are none) contains. -/
def demoModulesMiss : List RefModule :=
  [{ name := ("m.py".toList), file := some (.ok ("def f():".toList)) }]

/-- Two modules declaring the same function name `f`, with an empty candidate
corpus, so the name is missing from both. -/
def demoModulesDup : List RefModule :=
  [{ name := ("m1".toList), file := some (.ok ("def f():".toList)) },
   { name := ("m2".toList), file := some (.ok ("def f():".toList)) }]

/-- C1: the coverage percentage of every run's report equals
`(implemented / total) * 100` when the total symbol count is positive, and
equals `100` when the total is zero; no division by zero occurs (the
division is only performed under the positivity guard). -/
theorem coverage_percentage_formula (corpus : List CandFile) (mods : List RefModule) :
    (0 < (mainReport corpus mods).totalFunctions + (mainReport corpus mods).totalClasses →
      (mainReport corpus mods).percentage =
        (((mainReport corpus mods).implementedFunctions +
            (mainReport corpus mods).implementedClasses : ℕ) : ℚ) /
          (((mainReport corpus mods).totalFunctions +
            (mainReport corpus mods).totalClasses : ℕ) : ℚ) * 100) ∧
    ((mainReport corpus mods).totalFunctions + (mainReport corpus mods).totalClasses = 0 →
      (mainReport corpus mods).percentage = 100) := by
  constructor
  · intro h
    rw [mainReport_percentage, if_pos h]
  · intro h
    rw [mainReport_percentage, if_neg (by omega)]

/-- Witness for C1: a run over one module with two functions of which one is
found (positive total), and the empty run (zero total). -/
theorem coverage_percentage_formula_witness :
    ((mainReport demoCorpus demoModules).percentage =
      (((mainReport demoCorpus demoModules).implementedFunctions +
          (mainReport demoCorpus demoModules).implementedClasses : ℕ) : ℚ) /
        (((mainReport demoCorpus demoModules).totalFunctions +
          (mainReport demoCorpus demoModules).totalClasses : ℕ) : ℚ) * 100) ∧
    (mainReport [] []).percentage = 100 :=
  ⟨(coverage_percentage_formula demoCorpus demoModules).1 (by decide),
   (coverage_percentage_formula [] []).2 (by decide)⟩

/-- C2: a stripped line `"def foo(x):"` yields the function symbol `foo`;
`"def _hidden(x):"` yields no symbol; `"class Bar(Base):"` yields the class
symbol `Bar` (private-named classes are not excluded); and the extracted
function and class lists are exactly the per-line classifications in file
(line) order. -/
theorem extraction_classification :
    analyzeLines [("def foo(x):".toList)] = ([("foo".toList)], []) ∧
    analyzeLines [("def _hidden(x):".toList)] = ([], []) ∧
    analyzeLines [("class Bar(Base):".toList)] = ([], [("Bar".toList)]) ∧
    analyzeLines [("class _Secret(Base):".toList)] = ([], [("_Secret".toList)]) ∧
    ∀ lines : List (List Char),
      analyzeLines lines = (lines.filterMap funcOfLine, lines.filterMap classOfLine) :=
  ⟨by decide, by decide, by decide, by decide, analyzeLines_eq⟩

/-- C3: `check_cpp_equivalent` reports a symbol found exactly when some
candidate file's lower-cased text contains the lower-cased name as a
substring, returning the location of the first such file in traversal order
(characterized through `List.find?`); candidate text `FOO` satisfies a
search for `foo`, and `add` matches `addition`. -/
theorem equivalence_search_first_match :
    (∀ (name : List Char) (files : List CandFile),
      check_cpp_equivalent name files =
        match files.find? (fileMatches name) with
        | some f => (true, Location.foundIn f.path)
        | none => (false, Location.notFound)) ∧
    (∀ (name path text : List Char),
      (check_cpp_equivalent name [{ path := path, content := some text }]).1 =
        pyContains (pyLower name) (pyLower text)) ∧
    (check_cpp_equivalent ("foo".toList)
      [{ path := ("a.hpp".toList), content := some ("xx FOO yy".toList) }]).1 = true ∧
    (check_cpp_equivalent ("add".toList)
      [{ path := ("b.cpp".toList), content := some ("addition".toList) }]).1 = true := by
  refine ⟨check_eq_find, ?_, by decide, by decide⟩
  intro name path text
  by_cases hp : pyContains (pyLower name) (pyLower text) <;>
    simp [check_cpp_equivalent, hp]

/-- C4: the pass outcome of a run is `percentage >= 90`, i.e. the claimed
`pass = percentage >= threshold` at the default threshold 90; moreover the
gating variant's test (`coverage_percentage >= 90.0`) agrees with the
advisory variant's test (`implemented >= 0.9 * total`) on every report. -/
theorem pass_threshold_default_ninety (corpus : List CandFile) (mods : List RefModule) :
    (success_tv (mainReport corpus mods) = true ↔
      (mainReport corpus mods).percentage ≥ 90) ∧
    success_tv (mainReport corpus mods) =
      success_dv
        ((mainReport corpus mods).implementedFunctions +
          (mainReport corpus mods).implementedClasses)
        ((mainReport corpus mods).totalFunctions +
          (mainReport corpus mods).totalClasses) :=
  ⟨by simp [success_tv], success_tv_eq_dv corpus mods⟩

/-- C5: exit behaviour is a single policy selector read at the process
boundary: advisory always exits 0 regardless of pass, gating exits 0 exactly
when pass holds, and each policy value reproduces the corresponding source
boundary; the core's pass value itself is not unconditionally forced — runs
exist on which it is true and runs on which it is false. -/
theorem exit_policy_selector :
    (∀ s, exitCode .advisory s = 0) ∧
    (∀ s, exitCode .gating s = 0 ↔ s = true) ∧
    (∀ s, exitCode .gating s = exit_tv s ∧ exitCode .advisory s = mainBoundary_dv (.ok s)) ∧
    (∃ (c : List CandFile) (m : List RefModule), success_tv (mainReport c m) = true) ∧
    (∃ (c : List CandFile) (m : List RefModule), success_tv (mainReport c m) = false) := by
  refine ⟨fun s => rfl, fun s => by cases s <;> simp [exitCode, exit_tv],
    fun s => ⟨rfl, rfl⟩, ⟨[], [], by decide⟩, ⟨[], demoModulesMiss, ?_⟩⟩
  have h1 : (mainReport [] demoModulesMiss).totalFunctions +
      (mainReport [] demoModulesMiss).totalClasses = 1 := by decide
  have h2 : (mainReport [] demoModulesMiss).implementedFunctions +
      (mainReport [] demoModulesMiss).implementedClasses = 0 := by decide
  simp only [success_tv, mainReport_percentage, h1, h2]
  norm_num

/-- C6: for each kind every extracted symbol is counted as implemented or
appended to that kind's missing list, never both and never neither: the
missing lists of a run are exactly the module-order concatenation of the
per-module not-found entries, implemented count plus missing count equals
the total, the found and not-found sublists partition each result list, and
(no deduplication) the same not-found name in two modules yields two missing
entries. -/
theorem found_missing_partition :
    (∀ (corpus : List CandFile) (mods : List RefModule),
      (runModules corpus mods).2.1 =
          aggMissing (fun r => r.functions) (runModules corpus mods).1 ∧
        (runModules corpus mods).2.2 =
          aggMissing (fun r => r.classes) (runModules corpus mods).1) ∧
    (∀ (n : List Char) (rs : List SymResult),
      implementedCount rs + (missingOf n rs).length = rs.length ∧
        missingOf n rs = (rs.filter (fun r => !r.has_cpp)).map
          (fun r => { name := r.name, module := n }) ∧
        (rs.filter (fun r => r.has_cpp) ++ rs.filter (fun r => !r.has_cpp)).Perm rs) ∧
    (runModules [] demoModulesDup).2.1 =
      [{ name := ("f".toList), module := ("m1".toList) },
       { name := ("f".toList), module := ("m2".toList) }] := by
  refine ⟨runModules_missing, fun n rs =>
    ⟨implementedCount_add_missing n rs, missingOf_eq_filter n rs,
      List.filter_append_perm _ rs⟩, by decide⟩

/-- C7: extraction of a reference file whose read or decode fails returns
empty function and class lists with the error string recorded on the module
(and, being a total function, never raises), and the run folds the failure
in and continues: a failing module contributes nothing and the remaining
modules are processed unchanged. -/
theorem extraction_error_folded :
    (∀ path e, analyze_python_module path (.error e) =
      { functions := [], classes := [], path := path, error := some e }) ∧
    (∀ (corpus : List CandFile) (name e : List Char) (rest : List RefModule),
      runModules corpus ({ name := name, file := some (.error e) } :: rest) =
        runModules corpus rest) :=
  ⟨fun _path _e => rfl, fun _corpus _name _e _rest => rfl⟩

/-- C8 counterexample: in the gating variant (`test_verification.py`) the
`__main__` boundary has no handler, so a top-level fault raised by `main` is
surfaced unhandled instead of being resolved to a concrete exit code — the
claim that every unexpected top-level fault is caught at the process
boundary fails there. -/
theorem gating_fault_uncaught_cex :
    mainBoundary_tv (.error ("boom".toList)) = .error ("boom".toList) := rfl

/-- C8 amended: only the advisory variant (`detailed_verification.py`)
catches top-level faults at its process boundary, always resolving the
process to exit code 0; the gating variant (`test_verification.py`)
propagates a top-level fault unhandled, and resolves only fault-free runs to
an exit code. -/
theorem fault_handling_per_variant :
    (∀ r, mainBoundary_dv r = 0) ∧
    (∀ e, mainBoundary_tv (.error e) = .error e) ∧
    (∀ s, mainBoundary_tv (.ok s) = .ok (exit_tv s)) :=
  ⟨fun _r => rfl, fun _e => rfl, fun _s => rfl⟩

/-- C9: deserializing the missing-functions (and missing-classes) artifact
written by a run yields exactly the missing entries computed by that run, no
extras and no omissions; and because the artifact is opened in truncating
write mode, the written document is independent of any prior file content. -/
theorem artifact_roundtrip_overwrite :
    (∀ (prior : Option Json) (corpus : List CandFile) (mods : List RefModule),
      loadEntries (writeArtifact prior (mainReport corpus mods).missingFunctions) =
          some ((mainReport corpus mods).missingFunctions) ∧
        loadEntries (writeArtifact prior (mainReport corpus mods).missingClasses) =
          some ((mainReport corpus mods).missingClasses)) ∧
    (∀ (p1 p2 : Option Json) (l : List MissingEntry),
      writeArtifact p1 l = writeArtifact p2 l) :=
  ⟨fun _prior corpus mods =>
    ⟨loadEntries_dumpEntries ((mainReport corpus mods).missingFunctions),
     loadEntries_dumpEntries ((mainReport corpus mods).missingClasses)⟩,
   fun _p1 _p2 _l => rfl⟩

/-- C10: implicit edge case: the stripped line `"def ("` is classified as a
function declaration whose extracted name is the empty string, and for an
empty symbol name the equivalence search reports found on the first readable
candidate file it visits (the empty string is a substring of every text);
in particular an unreadable first file is skipped and the next readable one
is reported. -/
theorem empty_name_function_matches_everywhere :
    analyzeLines [("def (".toList)] = ([([] : List Char)], []) ∧
    (∀ files : List CandFile,
      check_cpp_equivalent [] files =
        match files.find? (fun f => f.content.isSome) with
        | some f => (true, Location.foundIn f.path)
        | none => (false, Location.notFound)) ∧
    check_cpp_equivalent []
        [{ path := ("u.hpp".toList), content := none },
         { path := ("r.hpp".toList), content := some ("x".toList) }] =
      (true, Location.foundIn ("r.hpp".toList)) := by
  refine ⟨by decide, ?_, by decide⟩
  intro files
  rw [check_eq_find]
  have hpred : fileMatches ([] : List Char) = fun f : CandFile => f.content.isSome :=
    funext fileMatches_nil
  rw [hpred]

end RCV
